import Mathlib

/-!
Verification of the Argument Clinic core (Tools/clinic/clinic.py) against its
natural-language specification.  The definitions below are a shallow embedding
of the claim-relevant parts of the source: the optional-group permutation
(clinic.py 88-152), the indent stack (clinic.py 2118-2189), the include merge
rule (clinic.py 1808-1824), the sidecar-file verification in Clinic.parse
(clinic.py 1884-1912), the DSL-parser marker and parameter handling
(clinic.py 2774-3252, 3534-3561), and the calling-convention selection of
output_templates (clinic.py 529-760, 1137-1155).  Data types that live in the
libclinic package of the repository (Parameter, FunctionKind, Include, the
converter contract) are modelled from the specification, as noted on each
definition.
-/

set_option linter.unusedVariables false

namespace Clinic

/-! Optional-group permutation (clinic.py 88-152). -/

/-- Loop of `permute_left_option_groups` (clinic.py 98-103): iterating over
`reversed(l)`, the accumulator becomes `list(group) + accumulator` and each
intermediate accumulator is yielded.  Here `gs` is the already reversed list. -/
def leftSteps {α : Type} : List (List α) → List α → List (List α)
  | [], _ => []
  | g :: gs, acc => (g ++ acc) :: leftSteps gs (g ++ acc)

/-- Embeds `permute_left_option_groups` (clinic.py 88-103): yields the empty
tuple, then every accumulation of the groups of `l` taken from the right. -/
def permute_left_option_groups {α : Type} (l : List (List α)) : List (List α) :=
  [] :: leftSteps l.reverse []

/-- Loop of `permute_right_option_groups` (clinic.py 115-119): the accumulator
is extended on the right by each group in order and yielded. -/
def rightSteps {α : Type} : List (List α) → List α → List (List α)
  | [], _ => []
  | g :: gs, acc => (acc ++ g) :: rightSteps gs (acc ++ g)

/-- Embeds `permute_right_option_groups` (clinic.py 105-119). -/
def permute_right_option_groups {α : Type} (l : List (List α)) : List (List α) :=
  [] :: rightSteps l []

/-- The deduplication loop of `permute_optional_groups` (clinic.py 140-148):
`seen` is the set of tuple lengths already emitted; a candidate tuple whose
length was already seen is skipped, otherwise it is kept and its length
recorded. -/
def dedupByLen {α : Type} : List (List α) → List Nat → List (List α)
  | [], _ => []
  | t :: ts, seen =>
      if t.length ∈ seen then dedupByLen ts seen
      else t :: dedupByLen ts (t.length :: seen)

/-- Comparison used by `accumulator.sort(key=len)` (clinic.py 150). -/
def lenLE {α : Type} (a b : List α) : Prop := a.length ≤ b.length

instance {α : Type} : DecidableRel (@lenLE α) := fun a b => Nat.decLe _ _

instance {α : Type} : IsTotal (List α) lenLE := ⟨fun a b => Nat.le_total _ _⟩

instance {α : Type} : IsTrans (List α) lenLE := ⟨fun _ _ _ => Nat.le_trans⟩

/-- The candidate list produced by the nested generator loops of
`permute_optional_groups` (clinic.py 142-143): the outer loop runs over the
right permutations, the inner loop over the left permutations. -/
def combos {α : Type} (left : List (List α)) (required : List α)
    (right : List (List α)) : List (List α) :=
  (permute_right_option_groups right).flatMap
    (fun r => (permute_left_option_groups left).map (fun l => l ++ required ++ r))

/-- Embeds `permute_optional_groups` (clinic.py 122-152).  Tuples whose total
length was already produced are skipped; finally the accumulator is sorted by
length.  `list.sort` is a stable sort, and after the deduplication loop all
lengths are pairwise distinct, so the stable insertion sort used here produces
the identical list. -/
def permute_optional_groups {α : Type} (left : List (List α)) (required : List α)
    (right : List (List α)) : Except String (List (List α)) :=
  if required.isEmpty && !left.isEmpty then
    .error "required is empty but left is not"
  else
    .ok (List.insertionSort lenLE (dedupByLen (combos left required right) []))

/-- Spec-side description of one left contribution: the groups are a prefix of
the reversed left list; since parameters keep declaration order, the tuple
contribution is the flattening of that prefix read back in declaration order. -/
def leftPick {α : Type} (left : List (List α)) (i : Nat) : List α :=
  ((left.reverse.take i).reverse).flatten

/-- Spec-side description of one right contribution: a prefix of the right
list, flattened. -/
def rightPick {α : Type} (right : List (List α)) (j : Nat) : List α :=
  (right.take j).flatten

/-- Spec-side candidate tuple built from `i` left groups and `j` right
groups around the required tuple. -/
def combo {α : Type} (left : List (List α)) (required : List α)
    (right : List (List α)) (i j : Nat) : List α :=
  leftPick left i ++ required ++ rightPick right j

/-- Boolean success test for `Except` results. -/
def isOkE {ε β : Type} : Except ε β → Bool
  | .ok _ => true
  | .error _ => false

deriving instance DecidableEq for Except

/-! Indent stack (clinic.py 2118-2189). -/

/-- Characters stripped by the Python `str.lstrip()` call in
`IndentStack.measure`; restricted to the ASCII whitespace characters, which are
the only ones the DSL can contain. -/
def pyspace (c : Char) : Bool :=
  c == ' ' || c == '\t' || c == '\n' || c == '\r' || c == '\x0B' || c == '\x0C'

/-- Embeds `IndentStack.measure` (clinic.py 2127-2139) together with the
`_ensure` helper (clinic.py 2123-2125) it calls on blank lines.  `indents` is
the stack of indent widths with the innermost at the end, as in the source. -/
def measure (indents : List Nat) (line : List Char) : Except String Nat :=
  match line.contains '\t' with
  | true => .error "Tab characters are illegal in the Argument Clinic DSL."
  | false =>
      match line.dropWhile pyspace with
      | [] =>
          match indents.getLast? with
          | some n => .ok n
          | none => .error "IndentStack expected indents, but none are defined."
      | _ :: _ => .ok (line.length - (line.dropWhile pyspace).length)

/-! Includes (clinic.py 1808-1824).  The Include record itself lives in
libclinic.crenderdata; modelled from the spec, section 3: filename, reason,
optional C preprocessor condition. -/

structure Include where
  filename : String
  reason : String
  condition : Option String
deriving DecidableEq

/-- Python truthiness of the optional condition string used by the
`if existing.condition and not condition` test: None and the empty string are
falsy. -/
def condTruthy : Option String → Bool
  | none => false
  | some s => !s.isEmpty

/-- Replacement of the value stored under a key of an insertion-ordered
mapping, keeping the position of the key, as Python dict assignment does. -/
def setAssoc : List (String × Include) → String → Include → List (String × Include)
  | [], n, inc => [(n, inc)]
  | (k, v) :: rest, n, inc =>
      if k = n then (k, inc) :: rest else (k, v) :: setAssoc rest n inc

/-- Embeds `Clinic.add_include` (clinic.py 1808-1824).  The include table is an
insertion-ordered mapping from filename to Include record. -/
def add_include (includes : List (String × Include)) (name reason : String)
    (condition : Option String) : List (String × Include) :=
  match includes.lookup name with
  | none => includes ++ [(name, Include.mk name reason condition)]
  | some existing =>
      if condTruthy existing.condition && !(condTruthy condition) then
        setAssoc includes name (Include.mk name reason condition)
      else includes

/-! Sidecar-file verification when flushing a file destination
(clinic.py 1884-1912). -/

/-- A block of an existing destination file as produced by the block parser;
only the input text matters for the verification check. -/
structure FileBlock where
  input : String
deriving DecidableEq

/-- Outcome marker: the destination file is written via libclinic.write_file. -/
inductive FlushResult where
  | written
deriving DecidableEq

/-- Embeds the file-destination flush of `Clinic.parse` (clinic.py 1884-1912):
when verification is on and the destination file exists, its parsed blocks must
be exactly one block whose input is the literal string preserve-newline,
otherwise processing fails naming the file; a missing file (FileNotFoundError)
and disabled verification skip the check and the file is written. -/
def flush_file_destination (verify : Bool) (existing : Option (List FileBlock))
    (filename : String) : Except String FlushResult :=
  match existing with
  | none => .ok .written
  | some blocks =>
      if verify then
        if blocks.length != 1 || (blocks.head?.map (·.input)) != some "preserve\n" then
          .error ("Modified destination file " ++ filename ++ "; not overwriting!")
        else .ok .written
      else .ok .written

/-! The DSL-parser function model.  Parameter, FunctionKind and the converter
objects live in the libclinic package of the repository; they are modelled from
the spec, sections 3 and 4.5. -/

/-- Parameter kinds (inspect.Parameter kinds used by clinic; spec section 3). -/
inductive ParamKind where
  | positional_only
  | positional_or_keyword
  | keyword_only
  | var_positional
deriving DecidableEq

/-- Classification of a converter instance, replacing the isinstance tests on
self_converter, defining_class_converter and object_converter; modelled from
the spec, section 4.5. -/
inductive ConvTag where
  | selfConv
  | definingClassConv
  | objectConv
  | otherConv
deriving DecidableEq

/-- Converter handle as seen by the core; modelled from the spec, section 4.5:
a format-unit string and an is_optional flag, plus the classification tag. -/
structure Conv where
  tag : ConvTag
  format_unit : String := ""
  optional : Bool := false
deriving DecidableEq

/-- Version tuple MAJOR.MINOR of the from-markers. -/
abbrev Version := Nat × Nat

/-- Python tuple comparison on version pairs (lexicographic). -/
def versionLT (a b : Version) : Bool :=
  a.1 < b.1 || (a.1 == b.1 && a.2 < b.2)

/-- Parameter record; modelled from the spec, section 3 (display name, kind,
converter handle, default sentinel, group id, deprecation version tuples). -/
structure Parameter where
  name : String
  kind : ParamKind
  conv : Conv
  group : Int := 0
  hasDefault : Bool := false
  deprecated_positional : Option Version := none
  deprecated_keyword : Option Version := none
deriving DecidableEq

/-- Embeds libclinic.function Parameter.is_vararg. -/
def Parameter.is_vararg (p : Parameter) : Bool :=
  match p.kind with
  | .var_positional => true
  | _ => false

/-- Embeds libclinic.function Parameter.is_keyword_only. -/
def Parameter.is_keyword_only (p : Parameter) : Bool :=
  match p.kind with
  | .keyword_only => true
  | _ => false

/-- Embeds libclinic.function Parameter.is_positional_only. -/
def Parameter.is_positional_only (p : Parameter) : Bool :=
  match p.kind with
  | .positional_only => true
  | _ => false

/-- Embeds libclinic.function Parameter.is_optional: not a vararg and the
default is specified; modelled from the spec, section 3. -/
def Parameter.is_optional (p : Parameter) : Bool :=
  !p.is_vararg && p.hasDefault

/-- Function kinds; modelled from the spec, section 3. -/
inductive FunctionKind where
  | callable
  | static_method
  | class_method
  | method_init
  | method_new
  | getter
  | setter
deriving DecidableEq

/-- Embeds FunctionKind.new_or_init of libclinic.function; modelled from the
spec, section 3 (constructor-init or constructor-new). -/
def FunctionKind.new_or_init : FunctionKind → Bool
  | .method_init => true
  | .method_new => true
  | _ => false

/-- The parts of the Function record consumed by the calling-convention
selection: ordered parameters (the receiver first), kind, the C type of the
return converter, and the critical-section flag. -/
structure CFunction where
  params : List Parameter
  kind : FunctionKind
  return_converter_type : String
  critical_section : Bool
deriving DecidableEq

/-! DSL-parser state machine pieces (clinic.py 2774-3252). -/

/-- ParamState enumeration (clinic.py 2195-2215). -/
inductive ParamState where
  | START
  | LEFT_SQUARE_BEFORE
  | GROUP_BEFORE
  | REQUIRED
  | OPTIONAL
  | RIGHT_SQUARE_AFTER
  | GROUP_AFTER
deriving DecidableEq

/-- The DSLParser fields consulted by the marker and parameter handlers. -/
structure ParserState where
  keyword_only : Bool := false
  positional_only : Bool := false
  deprecated_positional : Option Version := none
  deprecated_keyword : Option Version := none
  group : Int := 0
  parameter_state : ParamState := .START
deriving DecidableEq

/-- Embeds `DSLParser.to_required` (clinic.py 2774-2782): on entering the
required state every previously assigned group id is negated. -/
def to_required (st : ParserState) (params : List Parameter) :
    ParserState × List Parameter :=
  if st.parameter_state ≠ .REQUIRED then
    ({ st with parameter_state := .REQUIRED },
      params.map (fun p => { p with group := -p.group }))
  else (st, params)

/-- Embeds `DSLParser.check_previous_star` (clinic.py 3556-3561): fails when a
var-positional parameter is already present. -/
def check_previous_star (params : List Parameter) : Except String Unit :=
  if params.any (·.is_vararg) then
    .error "Function uses a star marker more than once."
  else .ok ()

/-- Embeds `DSLParser.check_remaining_star` (clinic.py 3534-3553): only the
last parameter is examined (the source loop breaks after one iteration). -/
def check_remaining_star (st : ParserState) (params : List Parameter) :
    Except String Unit :=
  if st.keyword_only then
    match params.getLast? with
    | some p =>
        if p.kind = .keyword_only then .ok ()
        else .error "Function specifies a star marker without following parameters."
    | none => .error "Function specifies a star marker without following parameters."
  else
    match st.deprecated_positional with
    | some v =>
        match params.getLast? with
        | some p =>
            if p.deprecated_positional = some v then .ok ()
            else .error "Function specifies a star-from marker without following parameters."
        | none => .error "Function specifies a star-from marker without following parameters."
    | none => .ok ()

/-- Embeds `DSLParser.parse_star` (clinic.py 3140-3163).  The error strings of
the source are kept up to quoting.  Note the final assignment
`self.deprecated_positional = version` of the source runs in both branches. -/
def parse_star (st : ParserState) (params : List Parameter)
    (version : Option Version) : Except String ParserState :=
  match version with
  | none =>
      if st.keyword_only then
        .error "Function uses a star marker more than once."
      else
        match check_previous_star params with
        | .error e => .error e
        | .ok _ =>
            match check_remaining_star st params with
            | .error e => .error e
            | .ok _ => .ok { st with keyword_only := true, deprecated_positional := none }
  | some v =>
      if st.keyword_only then
        .error "A star-from marker must precede the star marker."
      else
        match st.deprecated_positional with
        | some w =>
            if w = v then
              .error "Function uses the same star-from marker more than once."
            else if versionLT w v then
              .error "The later star-from marker must precede the earlier one."
            else .ok { st with deprecated_positional := some v }
        | none => .ok { st with deprecated_positional := some v }

/-- The parameter states in which a slash marker is accepted
(clinic.py 3238-3243). -/
def allowedSlashStates : List ParamState :=
  [.REQUIRED, .OPTIONAL, .RIGHT_SQUARE_AFTER, .GROUP_BEFORE]

/-- Tail of `DSLParser.parse_slash` (clinic.py 3230-3252): record the marker,
check for preceding parameters when versioned, check the group state, then fix
up the kinds or deprecation versions of the preceding parameters. -/
def slash_apply (st : ParserState) (params : List Parameter)
    (version : Option Version) : Except String (ParserState × List Parameter) :=
  let st1 := { st with positional_only := true, deprecated_keyword := version }
  let foundOk :=
    match version with
    | none => true
    | some _ =>
        match params.getLast? with
        | some p => p.kind = .positional_or_keyword
        | none => false
  if !foundOk then
    .error "Function specifies a slash-from marker without preceding parameters."
  else if st1.parameter_state ∉ allowedSlashStates || st1.group ≠ 0 then
    .error "Function has an unsupported group configuration."
  else
    .ok (st1, params.map (fun p =>
      if p.kind = .positional_or_keyword then
        match version with
        | none => { p with kind := .positional_only }
        | some v =>
            if p.deprecated_keyword = none then { p with deprecated_keyword := some v }
            else p
      else p))

/-- Embeds `DSLParser.parse_slash` (clinic.py 3197-3252). -/
def parse_slash (st : ParserState) (params : List Parameter)
    (version : Option Version) : Except String (ParserState × List Parameter) :=
  match version with
  | none =>
      if st.deprecated_keyword ≠ none then
        .error "The slash marker must precede the slash-from marker."
      else if st.deprecated_positional ≠ none then
        .error "The slash marker must precede the star-from marker."
      else if st.keyword_only then
        .error "The slash marker must precede the star marker."
      else if st.positional_only then
        .error "Function uses the slash marker more than once."
      else slash_apply st params none
  | some v =>
      match st.deprecated_keyword with
      | some w =>
          if w = v then
            .error "Function uses the same slash-from marker more than once."
          else if versionLT v w then
            .error "The earlier slash-from marker must precede the later one."
          else if st.deprecated_positional ≠ none then
            .error "The slash-from marker must precede the star-from marker."
          else if st.keyword_only then
            .error "The slash-from marker must precede the star marker."
          else slash_apply st params (some v)
      | none =>
          if st.deprecated_positional ≠ none then
            .error "The slash-from marker must precede the star-from marker."
          else if st.keyword_only then
            .error "The slash-from marker must precede the star marker."
          else slash_apply st params (some v)

/-! Parameter declaration handling (clinic.py 2829-3101).  The front half of
`DSLParser.parse_parameter` only parses the declaration text via the ast
module and never touches the ordered parameter map; a declaration line is
therefore represented by its resolved outcome. -/

/-- Resolved outcome of the text half of parse_parameter: the python name, the
resolved converter, whether the declaration is a vararg, whether a default was
given, and an optional C name from the as-clause. -/
structure Decl where
  name : String
  conv : Conv
  is_vararg : Bool := false
  hasDefault : Bool := false
  c_name : Option String := none

/-- Embeds the parameter-state match at the top of parse_parameter
(clinic.py 2831-2843). -/
def front_transition (st : ParserState) (params : List Parameter) :
    Except String (ParserState × List Parameter) :=
  match st.parameter_state with
  | .START => .ok (to_required st params)
  | .REQUIRED => .ok (to_required st params)
  | .LEFT_SQUARE_BEFORE => .ok ({ st with parameter_state := .GROUP_BEFORE }, params)
  | .GROUP_BEFORE =>
      if st.group = 0 then .ok (to_required st params) else .ok (st, params)
  | .GROUP_AFTER => .ok (st, params)
  | .OPTIONAL => .ok (st, params)
  | _ => .error "Function has an unsupported group configuration."

/-- Embeds the default-value state handling of parse_parameter
(clinic.py 2910-2927); the expression parsing and denylist of the source
validate only the default text and are elided. -/
def default_transition (st : ParserState) (decl : Decl) :
    Except String ParserState :=
  if !decl.hasDefault then
    if st.parameter_state = .OPTIONAL then
      .error "Cannot have a parameter without a default after a parameter with a default."
    else .ok st
  else
    if decl.is_vararg then .error "Vararg cannot take a default value."
    else if st.parameter_state = .REQUIRED then .ok { st with parameter_state := .OPTIONAL }
    else .ok st

/-- Embeds the duplicate-name checks and the insertion into the ordered
parameter map at the end of parse_parameter (clinic.py 3092-3101). -/
def insert_param (st : ParserState) (params : List Parameter) (decl : Decl)
    (kind : ParamKind) : Except String (ParserState × List Parameter) :=
  let p : Parameter :=
    { name := decl.name, kind := kind, conv := decl.conv,
      group := st.group, hasDefault := decl.hasDefault,
      deprecated_positional := st.deprecated_positional }
  let names := params.map (·.name)
  if p.name ∈ names.drop 1 then
    .error "You cannot have two parameters with the same name."
  else
    match names with
    | n0 :: _ =>
        if p.name = n0 ∧ decl.c_name = none then
          .error "Parameter requires a custom C name."
        else .ok (st, params ++ [p])
    | [] => .ok (st, params ++ [p])

/-- Embeds the parameter-map half of `DSLParser.parse_parameter`
(clinic.py 2829-3101): the front state transition, the vararg-count check, the
default handling, the kind computation, the self and defining-class special
cases, and the final insertion. -/
def parse_parameter (st0 : ParserState) (params0 : List Parameter)
    (decl : Decl) : Except String (ParserState × List Parameter) :=
  match front_transition st0 params0 with
  | .error e => .error e
  | .ok (st1, params1) =>
      if decl.is_vararg && params1.any (·.is_vararg) then
        .error "Too many var args."
      else
        match default_transition st1 decl with
        | .error e => .error e
        | .ok st2 =>
            let kind :=
              if decl.is_vararg then ParamKind.var_positional
              else if st2.keyword_only then ParamKind.keyword_only
              else ParamKind.positional_or_keyword
            if decl.conv.tag = .selfConv then
              if params1.length = 1 then
                if st2.parameter_state ≠ .REQUIRED then
                  .error "A self parameter cannot be marked optional."
                else if decl.hasDefault then
                  .error "A self parameter cannot have a default value."
                else if st2.group ≠ 0 then
                  .error "A self parameter cannot be in an optional group."
                else
                  insert_param { st2 with parameter_state := .START } [] decl
                    ParamKind.positional_only
              else
                .error "A self parameter, if specified, must be the very first thing in the parameter block."
            else if decl.conv.tag = .definingClassConv then
              if params1.length = 1 then
                if st2.parameter_state ≠ .REQUIRED then
                  .error "A defining_class parameter cannot be marked optional."
                else if decl.hasDefault then
                  .error "A defining_class parameter cannot have a default value."
                else if st2.group ≠ 0 then
                  .error "A defining_class parameter cannot be in an optional group."
                else insert_param st2 params1 decl kind
              else
                .error "A defining_class parameter must be the first thing in the parameter block or come just after self."
            else insert_param st2 params1 decl kind

/-- Embeds `DSLParser.add_function` (clinic.py 2683-2700): a fresh function
receives the auto-inserted receiver parameter as its only entry. -/
def initial_parameters (selfName : String) : List Parameter :=
  [{ name := selfName, kind := .positional_only, conv := { tag := .selfConv } }]

/-- The receiver invariant of the spec: the parameter map is non-empty, its
first entry carries the self converter, and no later entry does. -/
def selfInvariant (params : List Parameter) : Prop :=
  match params with
  | [] => False
  | p :: rest => p.conv.tag = .selfConv ∧ ∀ q ∈ rest, q.conv.tag ≠ .selfConv

/-! Calling-convention selection of output_templates (clinic.py 529-760,
1137-1155) and the templates it emits (clinic.py 230-300). -/

/-- State of the position-classification loop of output_templates
(clinic.py 551-566). -/
structure PosCounts where
  vararg : Option Nat
  pos_only : Nat
  min_pos : Nat
  max_pos : Nat
  min_kw_only : Nat
  pseudo_args : Nat
deriving DecidableEq

/-- Embeds the enumerate loop of output_templates (clinic.py 551-566)
computing the positional counters (1-based enumeration as in the source). -/
def posCounts (parameters : List Parameter) : PosCounts :=
  (parameters.enumFrom 1).foldl
    (fun st ip =>
      let i := ip.1
      let p := ip.2
      if p.is_keyword_only then
        if !p.is_optional then { st with min_kw_only := i - st.max_pos } else st
      else if p.is_vararg then
        { st with pseudo_args := st.pseudo_args + 1, vararg := some (i - 1) }
      else
        let st := if st.vararg = none then { st with max_pos := i } else st
        let st := if p.is_positional_only then { st with pos_only := i } else st
        if !p.is_optional then { st with min_pos := i } else st)
    ⟨none, 0, 0, 0, 0, 0⟩

/-- Embeds the meth_o condition (clinic.py 569-573): exactly one remaining
parameter, positional-only, whose converter is not optional, with no
defining-class capture, not a constructor. -/
def meth_o_check (parameters : List Parameter)
    (requires_defining_class new_or_init : Bool) : Bool :=
  match parameters with
  | [p] =>
      p.is_positional_only && !p.conv.optional &&
        !requires_defining_class && !new_or_init
  | _ => false

/-- The branch of the closed template set chosen by output_templates.  The
positional-only and general branches carry the fastcall bit computed at
selection (clinic.py 649, 744, 905); the later limited-API fallback inside
those two branches depends on the external converter library (spec section
4.5) and is not represented, as no claim depends on it. -/
inductive Shape where
  | getterNoParams
  | setterNoParams
  | noargs
  | defclassNoParams
  | methO
  | optionGroups
  | positionalOnly (fastcall : Bool)
  | general (fastcall : Bool)
deriving DecidableEq

/-- Embeds the branch selection of output_templates (clinic.py 534-573 and the
if-elif chain at 658-900): the receiver is popped, a leading defining-class
parameter is removed, then the no-parameter, meth_o, option-group,
positional-only and general branches are tried in order.  Returns none when
the parameter list is empty (the source asserts it is not). -/
def output_shape (f : CFunction) : Option Shape :=
  match f.params with
  | [] => none
  | _first :: rest =>
      let rdc_parameters : Bool × List Parameter :=
        match rest with
        | q :: qs =>
            if q.conv.tag = ConvTag.definingClassConv then (true, qs)
            else (false, q :: qs)
        | [] => (false, [])
      let requires_defining_class := rdc_parameters.1
      let parameters := rdc_parameters.2
      let new_or_init := f.kind.new_or_init
      let has_option_groups : Bool :=
        match parameters with
        | [] => false
        | p0 :: _ =>
            !(p0.group == 0) || !(((parameters.getLast?).map (·.group)).getD 0 == 0)
      let c := posCounts parameters
      let fastcall := !new_or_init
      if parameters.isEmpty then
        match f.kind with
        | .getter => some .getterNoParams
        | .setter => some .setterNoParams
        | _ =>
            if !requires_defining_class then some .noargs
            else some .defclassNoParams
      else if meth_o_check parameters requires_defining_class new_or_init then
        some .methO
      else if has_option_groups then
        some .optionGroups
      else if !requires_defining_class && (c.pos_only == parameters.length - c.pseudo_args) then
        some (.positionalOnly fastcall)
      else
        some (.general fastcall)

/-- The calling-convention flag string assigned at branch selection
(clinic.py 662-677, 696, 741, 744, 760, 905, 944); getters and setters leave
the flag empty. -/
def shape_flags : Shape → String
  | .getterNoParams => ""
  | .setterNoParams => ""
  | .noargs => "METH_NOARGS"
  | .defclassNoParams => "METH_METHOD|METH_FASTCALL|METH_KEYWORDS"
  | .methO => "METH_O"
  | .optionGroups => "METH_VARARGS"
  | .positionalOnly fastcall => if fastcall then "METH_FASTCALL" else "METH_VARARGS"
  | .general fastcall =>
      if fastcall then "METH_FASTCALL|METH_KEYWORDS" else "METH_VARARGS|METH_KEYWORDS"

/-- Embeds `simple_return` (clinic.py 547-548): the return converter type is
PyObject pointer and there is no critical section. -/
def simple_return (f : CFunction) : Bool :=
  (f.return_converter_type == "PyObject *") && !f.critical_section

/-- One piece of a C template: literal text or a named substitution hole.  The
source composes templates as strings with braces around hole names; the design
notes of the spec (section 9) describe this chunk representation. -/
inductive Chunk where
  | lit (s : String)
  | hole (name : String)
deriving DecidableEq

/-- A template is a sequence of chunks. -/
def Template := List Chunk

instance : DecidableEq Template := fun a b => List.hasDecEq a b

/-- Hole substitution over a template: literals are kept, holes are replaced
through the supplied assignment. -/
def renderTemplate (σ : String → String) : Template → String
  | [] => ""
  | .lit s :: rest => s ++ renderTemplate σ rest
  | .hole n :: rest => σ n ++ renderTemplate σ rest

/-- Embeds METH_O_PROTOTYPE (clinic.py 275-278) after normalize_snippet: the
function defined is the c_basename itself, taking the impl parameters. -/
def METH_O_PROTOTYPE : Template :=
  [.lit "static PyObject *\n", .hole "c_basename", .lit "(",
   .hole "impl_parameters", .lit ")"]

/-- Embeds IMPL_DEFINITION_PROTOTYPE (clinic.py 291-294) after
normalize_snippet: the impl is the c_basename with the _impl suffix. -/
def IMPL_DEFINITION_PROTOTYPE : Template :=
  [.lit "static ", .hole "impl_return_type", .lit "\n", .hole "c_basename",
   .lit "_impl(", .hole "impl_parameters", .lit ")"]

/-- Embeds METHODDEF_PROTOTYPE_DEFINE (clinic.py 295-298) after
normalize_snippet: the method-table entry references the c_basename as the
callee. -/
def METHODDEF_PROTOTYPE_DEFINE : Template :=
  [.lit "#define ", .hole "methoddef_name", .lit "    \\\n    \x7b\"",
   .hole "name", .lit "\", ", .hole "methoddef_cast", .hole "c_basename",
   .hole "methoddef_cast_end", .lit ", ", .hole "methoddef_flags", .lit ", ",
   .hole "c_basename", .lit "__doc__\x7d,"]

/-- Embeds the METH_O parser prototype built inline for converters without the
object fast path (clinic.py 728-733). -/
def methOArgPrototype (argname : String) : Template :=
  [.lit "static PyObject *\n", .hole "c_basename", .lit "(", .hole "self_type",
   .hole "self_name", .lit (", PyObject *" ++ argname), .lit ")"]

/-- Outputs of the meth_o branch of output_templates that the claims consult:
the flag, the parser prototype (none encodes the empty string), whether the
parser definition is the empty string, and the template used for the impl
definition. -/
structure MethOTemplates where
  flags : String
  parser_prototype : Option Template
  parser_definition_empty : Bool
  impl_definition : Template
deriving DecidableEq

/-- Embeds the meth_o branch of output_templates (clinic.py 696-736): with an
object converter of format unit O and a simple return, the parser is dropped
and the impl definition becomes METH_O_PROTOTYPE; with an object converter but
a return conversion, METH_O_PROTOTYPE becomes the parser prototype (the slight
hack of the source) and the impl keeps its _impl template; otherwise a parser
around parse_arg or PyArg_Parse is emitted and the impl keeps its _impl
template. -/
def meth_o_templates (p : Parameter) (simpleReturn : Bool) : MethOTemplates :=
  if p.conv.tag = .objectConv ∧ p.conv.format_unit = "O" then
    if simpleReturn then
      { flags := "METH_O", parser_prototype := none,
        parser_definition_empty := true, impl_definition := METH_O_PROTOTYPE }
    else
      { flags := "METH_O", parser_prototype := some METH_O_PROTOTYPE,
        parser_definition_empty := false, impl_definition := IMPL_DEFINITION_PROTOTYPE }
  else
    let argname := if p.name = "arg" then "arg_" else "arg"
    { flags := "METH_O", parser_prototype := some (methOArgPrototype argname),
      parser_definition_empty := false, impl_definition := IMPL_DEFINITION_PROTOTYPE }

/-- Naive substring test on character lists, used to state that the generated
fast-path code never mentions an _impl symbol. -/
def containsStr (hay needle : List Char) : Bool :=
  hay.tails.any (fun t => needle.isPrefixOf t)

/-- The concrete function model for the declaration mod.f(x: object) with the
parameter made positional-only, no return converter and no critical section
(scenario S1 of the spec). -/
def modF : CFunction :=
  { params :=
      [{ name := "self", kind := .positional_only, conv := { tag := .selfConv } },
       { name := "x", kind := .positional_only,
         conv := { tag := .objectConv, format_unit := "O" } }],
    kind := .callable,
    return_converter_type := "PyObject *",
    critical_section := false }

/-- The parameter x of modF. -/
def xParam : Parameter :=
  { name := "x", kind := .positional_only,
    conv := { tag := .objectConv, format_unit := "O" } }

/-- Hole assignment for rendering the fast-path output of modF: the c_basename
is mod_f and the impl parameters are the receiver and the object argument as
rendered by the converter contract (modelled from the spec, sections 4.5 and
8, scenario S1). -/
def sigmaModF : String → String := fun n =>
  if n = "c_basename" then "mod_f"
  else if n = "impl_parameters" then "PyObject *module, PyObject *x"
  else if n = "methoddef_name" then "MOD_F_METHODDEF"
  else if n = "name" then "f"
  else if n = "methoddef_cast" then "(PyCFunction)"
  else if n = "methoddef_cast_end" then ""
  else if n = "methoddef_flags" then "METH_O"
  else ""

/-- Sample positional-or-keyword parameter used as a concrete test input. -/
def pkParam : Parameter :=
  { name := "x", kind := .positional_or_keyword, conv := { tag := .otherConv } }

/-- Sample parameter carrying a positional-deprecation tag, used as a concrete
test input. -/
def depParam : Parameter :=
  { name := "x", kind := .positional_or_keyword, conv := { tag := .otherConv },
    deprecated_positional := some (3, 15) }

/-- Sample declaration resolving to an ordinary converter, used as a concrete
test input. -/
def xDecl : Decl :=
  { name := "x", conv := { tag := .otherConv } }

/-! Theorems.  Each claim of the specification is settled by exactly one
theorem below; helper lemmas are shared. -/

/-- C10: permute_optional_groups rejects its input with an error whenever the
required tuple is empty but the left optional-group list is non-empty; when
both are empty it returns normally, for any right list (clinic.py 136-139). -/
theorem permute_optional_groups_empty_required {α : Type}
    (left : List (List α)) (required : List α) (right : List (List α)) :
    (required = [] → left ≠ [] →
      permute_optional_groups left required right =
        .error "required is empty but left is not")
    ∧ (required = [] → left = [] →
      ∃ out, permute_optional_groups left required right = .ok out) := by
  constructor
  · intro hr hl
    subst hr
    cases left with
    | nil => exact absurd rfl hl
    | cons a l => simp [permute_optional_groups]
  · intro hr hl
    subst hr
    subst hl
    exact ⟨_, rfl⟩

/-- Witness for permute_optional_groups_empty_required at concrete inputs. -/
theorem permute_optional_groups_empty_required_witness :
    (permute_optional_groups [[0]] ([] : List Nat) [] =
      .error "required is empty but left is not")
    ∧ ∃ out, permute_optional_groups ([] : List (List Nat)) [] [[1]] = .ok out :=
  ⟨(permute_optional_groups_empty_required [[0]] [] []).1 rfl (by simp),
   (permute_optional_groups_empty_required [] [] [[1]]).2 rfl rfl⟩

/-- C2 amended: for left groups A, B, required C and right groups D, E
(encoded 0..4), the enumeration is exactly (C), (B,C), (A,B,C), (A,B,C,D),
(A,B,C,D,E) in this order: the equal-length combinations that use right
groups, (C,D), (B,C,D), (C,D,E), (B,C,D,E), are dropped by the per-length
deduplication, which keeps the left-first candidate. -/
theorem permute_optional_groups_example :
    permute_optional_groups [[0], [1]] [2] [[3], [4]]
      = .ok [[2], [1, 2], [0, 1, 2], [0, 1, 2, 3], [0, 1, 2, 3, 4]] := by
  decide

/-- C2 counterexample: the nine-tuple enumeration stated by the claim, which
keeps both combinations of each total length, is not what
permute_optional_groups returns on that input. -/
theorem permute_optional_groups_example_cex :
    permute_optional_groups [[0], [1]] [2] [[3], [4]]
      ≠ .ok [[2], [1, 2], [2, 3], [0, 1, 2], [1, 2, 3], [2, 3, 4],
             [0, 1, 2, 3], [1, 2, 3, 4], [0, 1, 2, 3, 4]] := by
  decide

/-- C9 counterexample: on a blank line (two spaces) with indent stack [4],
measure returns the innermost indent 4, not the leading-space count 2. -/
theorem measure_blank_line_cex :
    measure [4] [' ', ' '] = .ok 4
    ∧ (([' ', ' '].takeWhile (fun c => c == ' ')).length = 2)
    ∧ measure [4] [' ', ' ']
        ≠ .ok (([' ', ' '].takeWhile (fun c => c == ' ')).length) := by
  decide

/-- Helper: the length of the leading whitespace run equals the line length
minus the length of the stripped remainder. -/
theorem takeWhile_length_eq {α : Type} (p : α → Bool) (l : List α) :
    (l.takeWhile p).length = l.length - (l.dropWhile p).length := by
  have h : (l.takeWhile p).length + (l.dropWhile p).length = l.length := by
    rw [← List.length_append, List.takeWhile_append_dropWhile]
  omega

/-- C9 amended: measure fails whenever the line contains a tab; on a line with
non-whitespace content it returns the length of the leading whitespace run (all
spaces once tabs are excluded and the line has no embedded newlines); on a
blank line it returns the innermost recorded indent, and fails when no indents
are recorded (clinic.py 2123-2139). -/
theorem measure_spec (indents : List Nat) (line : List Char) (n : Nat) :
    (line.contains '\t' = true →
      measure indents line =
        .error "Tab characters are illegal in the Argument Clinic DSL.")
    ∧ (line.contains '\t' = false → line.dropWhile pyspace ≠ [] →
      measure indents line = .ok (line.takeWhile pyspace).length)
    ∧ (line.contains '\t' = false → line.dropWhile pyspace = [] →
      indents.getLast? = some n → measure indents line = .ok n)
    ∧ (line.contains '\t' = false → line.dropWhile pyspace = [] → indents = [] →
      measure indents line =
        .error "IndentStack expected indents, but none are defined.") := by
  refine ⟨?_, ?_, ?_, ?_⟩
  · intro h
    unfold measure
    rw [h]
  · intro ht hd
    unfold measure
    rw [ht]
    cases hdw : line.dropWhile pyspace with
    | nil => exact absurd hdw hd
    | cons c cs =>
        rw [takeWhile_length_eq pyspace line]
        simp [hdw]
  · intro ht hd hn
    unfold measure
    rw [ht, hd, hn]
  · intro ht hd hi
    subst hi
    unfold measure
    rw [ht, hd]
    rfl

/-- Witness for measure_spec at concrete inputs, one per case. -/
theorem measure_spec_witness :
    measure [] ['\t'] =
        .error "Tab characters are illegal in the Argument Clinic DSL."
    ∧ measure [] [' ', 'a'] = .ok (([' ', 'a'].takeWhile pyspace).length)
    ∧ measure [2] [' '] = .ok 2
    ∧ measure [] [' '] =
        .error "IndentStack expected indents, but none are defined." :=
  ⟨(measure_spec [] ['\t'] 0).1 (by decide),
   (measure_spec [] [' ', 'a'] 0).2.1 (by decide) (by decide),
   (measure_spec [2] [' '] 2).2.2.1 (by decide) (by decide) (by decide),
   (measure_spec [] [' '] 0).2.2.2 (by decide) (by decide) rfl⟩

/-- Helper: replacing the value under a key that is present keeps the key
resolvable to the new value. -/
theorem lookup_setAssoc (includes : List (String × Include)) (name : String)
    (inc ex : Include) (h : includes.lookup name = some ex) :
    (setAssoc includes name inc).lookup name = some inc := by
  induction includes with
  | nil => simp [List.lookup] at h
  | cons kv rest ih =>
      obtain ⟨k, v⟩ := kv
      by_cases hk : k = name
      · subst hk
        simp [setAssoc, List.lookup]
      · have hbeq : (name == k) = false := by
          simp only [beq_eq_false_iff_ne]
          exact fun hx => hk hx.symm
        simp only [List.lookup_cons, hbeq] at h
        simp only [setAssoc, if_neg hk, List.lookup_cons, hbeq]
        exact ih h

/-- C7: the merge rule of Clinic.add_include (clinic.py 1808-1824): a name
recorded unconditionally is kept unchanged; a conditional record is replaced
when the new call is unconditional; in every other case with the name present
the first record, including its reason, is kept; a new name is appended. -/
theorem add_include_merge (includes : List (String × Include))
    (name reason : String) (condition : Option String) (ex : Include) :
    (includes.lookup name = some ex → ex.condition = none →
      add_include includes name reason condition = includes)
    ∧ (includes.lookup name = some ex → condTruthy ex.condition = true →
      condition = none →
      add_include includes name reason condition
          = setAssoc includes name (Include.mk name reason none)
        ∧ (setAssoc includes name (Include.mk name reason none)).lookup name
            = some (Include.mk name reason none))
    ∧ (includes.lookup name = some ex →
      ¬(condTruthy ex.condition = true ∧ condTruthy condition = false) →
      add_include includes name reason condition = includes)
    ∧ (includes.lookup name = none →
      add_include includes name reason condition
        = includes ++ [(name, Include.mk name reason condition)]) := by
  refine ⟨?_, ?_, ?_, ?_⟩
  · intro h hc
    simp [add_include, h, hc, condTruthy]
  · intro h hc hnew
    subst hnew
    refine ⟨?_, lookup_setAssoc includes name _ ex h⟩
    have hnone : condTruthy none = false := rfl
    simp [add_include, h, hc, hnone]
  · intro h hno
    have : (condTruthy ex.condition && !condTruthy condition) = false := by
      cases hA : condTruthy ex.condition with
      | false => simp
      | true =>
          cases hB : condTruthy condition with
          | false => exact absurd ⟨hA, hB⟩ hno
          | true => simp
    simp [add_include, h, this]
  · intro h
    simp [add_include, h]

/-- Witness for add_include_merge, exercising all four cases concretely. -/
theorem add_include_merge_witness :
    (add_include [("a.h", Include.mk "a.h" "r1" none)] "a.h" "r2" (some "#if X")
      = [("a.h", Include.mk "a.h" "r1" none)])
    ∧ (add_include [("b.h", Include.mk "b.h" "r1" (some "#if X"))] "b.h" "r2" none
        = setAssoc [("b.h", Include.mk "b.h" "r1" (some "#if X"))] "b.h"
            (Include.mk "b.h" "r2" none)
      ∧ (setAssoc [("b.h", Include.mk "b.h" "r1" (some "#if X"))] "b.h"
            (Include.mk "b.h" "r2" none)).lookup "b.h"
          = some (Include.mk "b.h" "r2" none))
    ∧ (add_include [("b.h", Include.mk "b.h" "r1" (some "#if X"))] "b.h" "r2"
        (some "#if Y")
        = [("b.h", Include.mk "b.h" "r1" (some "#if X"))])
    ∧ (add_include [] "c.h" "r" none = [("c.h", Include.mk "c.h" "r" none)]) :=
  ⟨(add_include_merge [("a.h", Include.mk "a.h" "r1" none)] "a.h" "r2"
      (some "#if X") (Include.mk "a.h" "r1" none)).1 (by decide) rfl,
   (add_include_merge [("b.h", Include.mk "b.h" "r1" (some "#if X"))] "b.h" "r2"
      none (Include.mk "b.h" "r1" (some "#if X"))).2.1 (by decide) (by decide) rfl,
   (add_include_merge [("b.h", Include.mk "b.h" "r1" (some "#if X"))] "b.h" "r2"
      (some "#if Y") (Include.mk "b.h" "r1" (some "#if X"))).2.2.1 (by decide)
      (by decide),
   (add_include_merge [] "c.h" "r" none (Include.mk "c.h" "r" none)).2.2.2
      (by decide)⟩

/-- C8: when flushing a file destination with verification enabled, an
existing file whose first parsed block does not have input preserve-newline
makes processing fail with an error naming the file; with verification
disabled the check is skipped; a non-existent file is always written
(clinic.py 1884-1912). -/
theorem flush_preserve (verify : Bool) (existing : Option (List FileBlock))
    (filename : String) (blocks : List FileBlock) :
    (existing = none →
      flush_file_destination verify existing filename = .ok .written)
    ∧ (verify = false →
      flush_file_destination verify existing filename = .ok .written)
    ∧ (verify = true → existing = some blocks →
      blocks.head?.map (·.input) ≠ some "preserve\n" →
      flush_file_destination verify existing filename
        = .error ("Modified destination file " ++ filename ++ "; not overwriting!")) := by
  refine ⟨?_, ?_, ?_⟩
  · intro h
    subst h
    rfl
  · intro h
    subst h
    cases existing <;> rfl
  · intro hv he hb
    subst hv
    subst he
    cases blocks with
    | nil => rfl
    | cons b bs =>
        have hin : b.input ≠ "preserve\n" := by
          intro hh
          exact hb (by simp [hh])
        have : ((some b.input : Option String) != some "preserve\n") = true := by
          simp [hin]
        simp [flush_file_destination, this]

/-- Witness for flush_preserve: a sidecar whose first block is not a preserve
block is refused, and the two write paths succeed. -/
theorem flush_preserve_witness :
    flush_file_destination true none "clinic/foo.c.h" = .ok .written
    ∧ flush_file_destination false (some [FileBlock.mk "x\n"]) "clinic/foo.c.h"
        = .ok .written
    ∧ flush_file_destination true (some [FileBlock.mk "x\n"]) "clinic/foo.c.h"
        = .error ("Modified destination file " ++ "clinic/foo.c.h" ++ "; not overwriting!") :=
  ⟨(flush_preserve true none "clinic/foo.c.h" []).1 rfl,
   (flush_preserve false (some [FileBlock.mk "x\n"]) "clinic/foo.c.h" []).2.1 rfl,
   (flush_preserve true (some [FileBlock.mk "x\n"]) "clinic/foo.c.h"
      [FileBlock.mk "x\n"]).2.2 rfl rfl (by decide)⟩

/-- C5 counterexample: the sequence the claim calls accepted is rejected.
After an unversioned star marker, a versioned star-from marker fails with the
error that the star-from marker must precede the star marker
(clinic.py 3155-3156). -/
theorem parse_star_order_cex :
    parse_star {} [pkParam] none = .ok { keyword_only := true }
    ∧ parse_star { keyword_only := true } [pkParam] (some (3, 14))
        = .error "A star-from marker must precede the star marker." := by
  decide

/-- C5 amended: the DSL parser enforces the reverse order: a versioned
star-from marker must come before the unversioned star marker.  In any state
in which the unversioned star was already seen, a star-from marker is
rejected; after a star-from marker, once a parameter carrying the deprecation
has been declared, the unversioned star is accepted (clinic.py 3140-3163). -/
theorem parse_star_order (st : ParserState) (params : List Parameter)
    (v : Version) (p : Parameter) :
    (st.keyword_only = true →
      parse_star st params (some v)
        = .error "A star-from marker must precede the star marker.")
    ∧ (st.keyword_only = false → st.deprecated_positional = some v →
      params.getLast? = some p → p.deprecated_positional = some v →
      params.all (fun q => !q.is_vararg) = true →
      parse_star st params none
        = .ok { st with keyword_only := true, deprecated_positional := none }) := by
  constructor
  · intro h
    simp [parse_star, h]
  · intro hk hdp hlast hpdep hall
    have h1 : check_previous_star params = .ok () := by
      have hany : params.any (·.is_vararg) = false := by
        rw [List.any_eq_false]
        intro q hq
        have hh := (List.all_eq_true.mp hall) q hq
        simpa using hh
      simp [check_previous_star, hany]
    have h2 : check_remaining_star st params = .ok () := by
      simp [check_remaining_star, hk, hdp, hlast, hpdep]
    simp [parse_star, hk, h1, h2]

/-- Witness for parse_star_order: rejection after a star, and acceptance of a
star after a star-from with a tagged parameter in between. -/
theorem parse_star_order_witness :
    parse_star { keyword_only := true } [] (some (3, 15))
      = .error "A star-from marker must precede the star marker."
    ∧ parse_star { deprecated_positional := some (3, 15) } [depParam] none
        = .ok { keyword_only := true, deprecated_positional := none } :=
  ⟨(parse_star_order { keyword_only := true } [] (3, 15) depParam).1 rfl,
   (parse_star_order { deprecated_positional := some (3, 15) } [depParam]
      (3, 15) depParam).2 rfl rfl (by decide) (by decide) (by decide)⟩

/-- C6: a slash-from marker followed by a star-from marker is accepted (given
a preceding positional-or-keyword parameter and a clean marker state), while a
slash-from marker after a star-from marker is rejected
(clinic.py 3197-3252 and 3140-3163). -/
theorem slash_from_star_from_order (st : ParserState) (params : List Parameter)
    (p : Parameter) (v1 v2 : Version) :
    (st.deprecated_keyword = none → st.deprecated_positional = none →
      st.keyword_only = false → st.group = 0 → st.parameter_state = .REQUIRED →
      params.getLast? = some p → p.kind = .positional_or_keyword →
      ∃ st1 params1,
        parse_slash st params (some v1) = .ok (st1, params1)
        ∧ isOkE (parse_star st1 params1 (some v2)) = true)
    ∧ (st.deprecated_positional = some v2 →
      isOkE (parse_slash st params (some v1)) = false) := by
  constructor
  · intro hdk hdp hko hg hps hlast hpk
    have hfound : (match params.getLast? with
        | some q => decide (q.kind = ParamKind.positional_or_keyword)
        | none => false) = true := by
      rw [hlast]
      simp [hpk]
    have happ : slash_apply st params (some v1)
        = .ok ({ st with positional_only := true, deprecated_keyword := some v1 },
            params.map (fun q =>
              if q.kind = .positional_or_keyword then
                (if q.deprecated_keyword = none then
                  { q with deprecated_keyword := some v1 }
                else q)
              else q)) := by
      simp [slash_apply, hlast, hpk, hps, hg, allowedSlashStates]
    refine ⟨{ st with positional_only := true, deprecated_keyword := some v1 },
      params.map (fun q =>
        if q.kind = .positional_or_keyword then
          (if q.deprecated_keyword = none then
            { q with deprecated_keyword := some v1 }
          else q)
        else q), ?_, ?_⟩
    · simp [parse_slash, hdk, hdp, hko, happ]
    · simp [parse_star, isOkE, hko, hdp]
  · intro h
    cases hdk : st.deprecated_keyword with
    | none => simp [parse_slash, hdk, h, isOkE]
    | some w =>
        by_cases h1 : w = v1
        · simp [parse_slash, hdk, h1, isOkE]
        · by_cases h2 : versionLT v1 w = true
          · simp [parse_slash, hdk, h1, h2, isOkE]
          · simp [parse_slash, hdk, h1, h2, h, isOkE]

/-- Witness for slash_from_star_from_order: the accepted order at version
pair 3.14 then 3.15 and the rejected reverse order. -/
theorem slash_from_star_from_order_witness :
    (∃ st1 params1,
      parse_slash { parameter_state := .REQUIRED } [pkParam] (some (3, 14))
        = .ok (st1, params1)
      ∧ isOkE (parse_star st1 params1 (some (3, 15))) = true)
    ∧ isOkE (parse_slash { deprecated_positional := some (3, 15) } []
        (some (3, 14))) = false :=
  ⟨(slash_from_star_from_order { parameter_state := .REQUIRED } [pkParam]
      pkParam (3, 14) (3, 15)).1 rfl rfl rfl rfl rfl (by decide) rfl,
   (slash_from_star_from_order { deprecated_positional := some (3, 15) } []
      pkParam (3, 14) (3, 15)).2 rfl⟩

/-- Helper: negating the group ids of all parameters keeps the receiver
invariant. -/
theorem selfInvariant_map_group (params : List Parameter)
    (h : selfInvariant params) :
    selfInvariant (params.map (fun p => { p with group := -p.group })) := by
  cases params with
  | nil => exact h.elim
  | cons p rest =>
      obtain ⟨h1, h2⟩ := h
      refine ⟨h1, ?_⟩
      intro q hq
      rcases List.mem_map.mp hq with ⟨r, hr, rfl⟩
      exact h2 r hr

/-- Helper: appending a parameter whose converter is not the self converter
keeps the receiver invariant. -/
theorem selfInvariant_append (params : List Parameter) (p : Parameter)
    (hinv : selfInvariant params) (hp : p.conv.tag ≠ ConvTag.selfConv) :
    selfInvariant (params ++ [p]) := by
  cases params with
  | nil => exact hinv.elim
  | cons q rest =>
      obtain ⟨h1, h2⟩ := hinv
      refine ⟨h1, ?_⟩
      intro r hr
      rcases List.mem_append.mp hr with hr | hr
      · exact h2 r hr
      · rw [List.mem_singleton.mp hr]
        exact hp

/-- Helper: a successful front transition returns the parameter list intact or
with all group ids negated. -/
theorem front_transition_params (st : ParserState) (params : List Parameter)
    (st1 : ParserState) (params1 : List Parameter)
    (h : front_transition st params = .ok (st1, params1)) :
    params1 = params
    ∨ params1 = params.map (fun p => { p with group := -p.group }) := by
  unfold front_transition to_required at h
  split at h <;> (try split at h) <;> simp_all

/-- Helper: a successful insertion appends exactly the built parameter. -/
theorem insert_param_result (st : ParserState) (params : List Parameter)
    (decl : Decl) (kind : ParamKind) (st1 : ParserState)
    (params1 : List Parameter)
    (h : insert_param st params decl kind = .ok (st1, params1)) :
    params1 = params ++
      [{ name := decl.name, kind := kind, conv := decl.conv,
         group := st.group, hasDefault := decl.hasDefault,
         deprecated_positional := st.deprecated_positional }] := by
  unfold insert_param at h
  dsimp only at h
  split at h
  · exact absurd h (by simp)
  · split at h
    · split at h
      · exact absurd h (by simp)
      · simp only [Except.ok.injEq, Prod.mk.injEq] at h
        exact h.2.symm
    · simp only [Except.ok.injEq, Prod.mk.injEq] at h
      exact h.2.symm

/-- C4: every function built by the DSL parser starts with exactly one
receiver parameter in first position (DSLParser.add_function,
clinic.py 2683-2700), and every successful parameter-declaration line
preserves this: an explicit self parameter is only accepted when the
auto-inserted receiver is the sole entry, and it replaces it; any other
parameter is appended after the receiver (DSLParser.parse_parameter,
clinic.py 2829-3101). -/
theorem self_receiver_invariant (selfName : String) :
    selfInvariant (initial_parameters selfName)
    ∧ ∀ st params decl st2 params2,
        selfInvariant params →
        parse_parameter st params decl = .ok (st2, params2) →
        selfInvariant params2 := by
  constructor
  · exact ⟨rfl, by simp⟩
  · intro st params decl st2 params2 hinv h
    unfold parse_parameter at h
    cases hf : front_transition st params with
    | error e => rw [hf] at h; simp at h
    | ok pair =>
        obtain ⟨st1, params1⟩ := pair
        rw [hf] at h
        dsimp only at h
        have hinv1 : selfInvariant params1 := by
          rcases front_transition_params st params st1 params1 hf with h1 | h1
          · rw [h1]; exact hinv
          · rw [h1]; exact selfInvariant_map_group params hinv
        split at h
        · simp at h
        · cases hd : default_transition st1 decl with
          | error e => rw [hd] at h; simp at h
          | ok st2a =>
              rw [hd] at h
              dsimp only at h
              by_cases hself : decl.conv.tag = ConvTag.selfConv
              · rw [if_pos hself] at h
                split at h
                · split at h
                  · simp at h
                  · split at h
                    · simp at h
                    · split at h
                      · simp at h
                      · have hres := insert_param_result _ _ _ _ _ _ h
                        rw [hres]
                        exact ⟨hself, by simp⟩
                · simp at h
              · rw [if_neg hself] at h
                by_cases hdc : decl.conv.tag = ConvTag.definingClassConv
                · rw [if_pos hdc] at h
                  split at h
                  · split at h
                    · simp at h
                    · split at h
                      · simp at h
                      · split at h
                        · simp at h
                        · have hres := insert_param_result _ _ _ _ _ _ h
                          rw [hres]
                          exact selfInvariant_append _ _ hinv1 hself
                  · simp at h
                · rw [if_neg hdc] at h
                  have hres := insert_param_result _ _ _ _ _ _ h
                  rw [hres]
                  exact selfInvariant_append _ _ hinv1 hself

/-- Witness for self_receiver_invariant: the fresh parameter map satisfies the
invariant, and it is preserved across a concrete successful declaration of an
ordinary parameter x. -/
theorem self_receiver_invariant_witness :
    selfInvariant (initial_parameters "self")
    ∧ selfInvariant
        [{ name := "self", kind := .positional_only, conv := { tag := .selfConv } },
         { name := "x", kind := .positional_or_keyword, conv := { tag := .otherConv },
           group := 0, hasDefault := false, deprecated_positional := none }] :=
  ⟨(self_receiver_invariant "self").1,
   (self_receiver_invariant "self").2 {} (initial_parameters "self") xDecl
     { parameter_state := .REQUIRED } _ (self_receiver_invariant "self").1
     (by decide)⟩

/-- C3 counterexample: for the function model of mod.f(x: object) (scenario S1)
the meth_o fast path is taken and the generated impl is defined and invoked
under the parser name mod_f itself; the symbol mod_f_impl that the claim
prescribes occurs neither in the impl definition nor in the method-table
entry. -/
theorem meth_o_impl_name_cex :
    output_shape modF = some Shape.methO
    ∧ (meth_o_templates xParam (simple_return modF)).parser_prototype = none
    ∧ (meth_o_templates xParam (simple_return modF)).parser_definition_empty = true
    ∧ renderTemplate sigmaModF
        (meth_o_templates xParam (simple_return modF)).impl_definition
        = "static PyObject *\nmod_f(PyObject *module, PyObject *x)"
    ∧ renderTemplate sigmaModF
        (meth_o_templates xParam (simple_return modF)).impl_definition
        ≠ "static PyObject *\nmod_f_impl(PyObject *module, PyObject *x)"
    ∧ containsStr ("static PyObject *\nmod_f(PyObject *module, PyObject *x)").toList
        "mod_f_impl".toList = false
    ∧ renderTemplate sigmaModF METHODDEF_PROTOTYPE_DEFINE
        = "#define MOD_F_METHODDEF    \\\n    \x7b\"f\", (PyCFunction)mod_f, METH_O, mod_f__doc__\x7d,"
    ∧ containsStr (renderTemplate sigmaModF METHODDEF_PROTOTYPE_DEFINE).toList
        "mod_f_impl".toList = false := by
  decide

/-- C3 amended: a function with exactly one positional-only, non-optional
parameter besides the receiver (no defining-class capture), not a constructor,
selects the METH_O calling convention; when additionally the parameter uses
the object converter with format unit O and the function needs no return
conversion and no critical section, no parser function is generated
(parser_prototype and parser_definition are empty) and the method table
invokes the impl directly: the impl is defined under the parser name itself,
called as mod_f(self, arg) for a declaration mod.f(x: object), with no
separate mod_f_impl symbol. -/
theorem meth_o_selection (f : CFunction) (sp p : Parameter)
    (hps : f.params = [sp, p])
    (hpos : p.is_positional_only = true)
    (hopt : p.conv.optional = false)
    (hdc : p.conv.tag ≠ ConvTag.definingClassConv)
    (hni : f.kind.new_or_init = false) :
    (output_shape f = some Shape.methO ∧ shape_flags Shape.methO = "METH_O")
    ∧ (p.conv.tag = ConvTag.objectConv → p.conv.format_unit = "O" →
        simple_return f = true →
        (meth_o_templates p (simple_return f)).parser_prototype = none
        ∧ (meth_o_templates p (simple_return f)).parser_definition_empty = true
        ∧ (meth_o_templates p (simple_return f)).impl_definition = METH_O_PROTOTYPE
        ∧ ∀ σ : String → String,
            renderTemplate σ (meth_o_templates p (simple_return f)).impl_definition
              = "static PyObject *\n" ++ σ "c_basename" ++ "("
                  ++ σ "impl_parameters" ++ ")") := by
  constructor
  · refine ⟨?_, rfl⟩
    simp [output_shape, hps, hdc, meth_o_check, hpos, hopt, hni]
  · intro hobj hfu hsr
    rw [hsr]
    have hcond : p.conv.tag = ConvTag.objectConv ∧ p.conv.format_unit = "O" :=
      ⟨hobj, hfu⟩
    refine ⟨?_, ?_, ?_, ?_⟩
    · simp [meth_o_templates, hcond]
    · simp [meth_o_templates, hcond]
    · simp [meth_o_templates, hcond]
    · intro σ
      have himpl : (meth_o_templates p true).impl_definition = METH_O_PROTOTYPE := by
        simp [meth_o_templates, hcond]
      rw [himpl]
      simp [renderTemplate, METH_O_PROTOTYPE, String.append_assoc]

/-- Witness for meth_o_selection at the concrete model of mod.f(x: object). -/
theorem meth_o_selection_witness :
    (output_shape modF = some Shape.methO ∧ shape_flags Shape.methO = "METH_O")
    ∧ ((meth_o_templates xParam (simple_return modF)).parser_prototype = none
      ∧ (meth_o_templates xParam (simple_return modF)).parser_definition_empty = true
      ∧ (meth_o_templates xParam (simple_return modF)).impl_definition = METH_O_PROTOTYPE
      ∧ renderTemplate sigmaModF
          (meth_o_templates xParam (simple_return modF)).impl_definition
          = "static PyObject *\n" ++ sigmaModF "c_basename" ++ "("
              ++ sigmaModF "impl_parameters" ++ ")") := by
  have h := meth_o_selection modF
    { name := "self", kind := .positional_only, conv := { tag := .selfConv } }
    xParam rfl rfl rfl (by decide) rfl
  exact ⟨h.1, (h.2 rfl rfl rfl).1, (h.2 rfl rfl rfl).2.1, (h.2 rfl rfl rfl).2.2.1,
    (h.2 rfl rfl rfl).2.2.2 sigmaModF⟩

/-! Lemmas for the optional-group permutation claim. -/

/-- Helper: closed form of the right generator loop. -/
theorem rightSteps_eq {α : Type} (gs : List (List α)) (acc : List α) :
    rightSteps gs acc
      = (List.range gs.length).map (fun j => acc ++ (gs.take (j + 1)).flatten) := by
  induction gs generalizing acc with
  | nil => rfl
  | cons g gs ih =>
      rw [rightSteps, List.length_cons, List.range_succ_eq_map, List.map_cons,
        List.map_map]
      congr 1
      · simp
      · rw [ih]
        apply List.map_congr_left
        intro j hj
        simp [List.take_succ_cons, List.append_assoc]

/-- Helper: the right permutations are exactly the flattened prefixes. -/
theorem permute_right_eq {α : Type} (r : List (List α)) :
    permute_right_option_groups r
      = (List.range (r.length + 1)).map (fun j => rightPick r j) := by
  rw [permute_right_option_groups, rightSteps_eq, List.range_succ_eq_map,
    List.map_cons, List.map_map]
  congr 1

/-- Helper: closed form of the left generator loop. -/
theorem leftSteps_eq {α : Type} (gs : List (List α)) (acc : List α) :
    leftSteps gs acc
      = (List.range gs.length).map
          (fun i => ((gs.take (i + 1)).reverse).flatten ++ acc) := by
  induction gs generalizing acc with
  | nil => rfl
  | cons g gs ih =>
      rw [leftSteps, List.length_cons, List.range_succ_eq_map, List.map_cons,
        List.map_map]
      congr 1
      · simp
      · rw [ih]
        apply List.map_congr_left
        intro i hi
        simp [List.take_succ_cons, List.reverse_cons, List.flatten_append,
          List.append_assoc]

/-- Helper: the left permutations are exactly the flattened prefixes of the
reversed left list, read back in declaration order. -/
theorem permute_left_eq {α : Type} (l : List (List α)) :
    permute_left_option_groups l
      = (List.range (l.length + 1)).map (fun i => leftPick l i) := by
  rw [permute_left_option_groups, leftSteps_eq, List.length_reverse,
    List.range_succ_eq_map, List.map_cons, List.map_map]
  congr 1
  apply List.map_congr_left
  intro i hi
  simp [leftPick, Function.comp]

/-- Helper: the candidate list is the double enumeration of the combos, outer
index over right prefixes, inner index over left prefixes. -/
theorem combos_eq {α : Type} (left : List (List α)) (required : List α)
    (right : List (List α)) :
    combos left required right
      = (List.range (right.length + 1)).flatMap
          (fun j => (List.range (left.length + 1)).map
            (fun i => combo left required right i j)) := by
  rw [combos, permute_right_eq, permute_left_eq, List.flatMap_map]
  congr 1
  funext j
  rw [List.map_map]
  rfl

/-- Helper: length of a flatMap whose blocks all have length K. -/
theorem flatMap_length_const {β γ : Type} (K : Nat) :
    ∀ (l : List β) (G : β → List γ), (∀ b ∈ l, (G b).length = K) →
      (l.flatMap G).length = l.length * K
  | [], G, hK => by simp
  | b :: bs, G, hK => by
      rw [List.flatMap_cons, List.length_append, hK b (List.mem_cons_self b bs),
        flatMap_length_const K bs G (fun x hx => hK x (List.mem_cons_of_mem _ hx)),
        List.length_cons, Nat.succ_mul]
      omega

/-- Helper: the candidate list has (m+1)(k+1) entries. -/
theorem combos_length {α : Type} (left : List (List α)) (required : List α)
    (right : List (List α)) :
    (combos left required right).length
      = (right.length + 1) * (left.length + 1) := by
  rw [combos_eq, flatMap_length_const (left.length + 1) _ _ (fun b hb => by simp)]
  simp

/-- Helper: indexing into a flatMap whose blocks all have length K. -/
theorem flatMap_getElem_const {β γ : Type} (K : Nat) :
    ∀ (l : List β) (G : β → List γ), (∀ b ∈ l, (G b).length = K) →
      ∀ (q r : Nat), r < K →
      (l.flatMap G)[q * K + r]? = l[q]?.bind (fun b => (G b)[r]?)
  | [], G, hK, q, r, hr => by simp
  | b :: bs, G, hK, q, r, hr => by
      rw [List.flatMap_cons]
      have hlen : (G b).length = K := hK b (List.mem_cons_self b bs)
      cases q with
      | zero =>
          rw [Nat.zero_mul, Nat.zero_add, List.getElem?_append_left (by omega)]
          simp
      | succ q =>
          have hsm : (q + 1) * K = q * K + K := Nat.succ_mul q K
          have hge : (G b).length ≤ (q + 1) * K + r := by omega
          rw [List.getElem?_append_right hge]
          have hidx : (q + 1) * K + r - (G b).length = q * K + r := by omega
          rw [hidx,
            flatMap_getElem_const K bs G
              (fun x hx => hK x (List.mem_cons_of_mem _ hx)) q r hr]
          simp

/-- Helper: the candidate at flat position j(k+1)+i is the combo (i, j). -/
theorem combos_getElem {α : Type} (left : List (List α)) (required : List α)
    (right : List (List α)) (i j : Nat)
    (hi : i < left.length + 1) (hj : j < right.length + 1) :
    (combos left required right)[j * (left.length + 1) + i]?
      = some (combo left required right i j) := by
  rw [combos_eq,
    flatMap_getElem_const (left.length + 1) _ _ (fun b hb => by simp) j i hi]
  simp [List.getElem?_range, hi, hj]

/-- Helper: deduplication only keeps candidates. -/
theorem mem_of_mem_dedupByLen {α : Type} :
    ∀ (xs : List (List α)) (seen : List Nat) (t : List α),
      t ∈ dedupByLen xs seen → t ∈ xs
  | [], seen, t, h => by simp [dedupByLen] at h
  | x :: xs, seen, t, h => by
      rw [dedupByLen] at h
      split at h
      · exact List.mem_cons_of_mem _ (mem_of_mem_dedupByLen xs seen t h)
      · rcases List.mem_cons.mp h with rfl | h2
        · exact List.mem_cons_self _ _
        · exact List.mem_cons_of_mem _ (mem_of_mem_dedupByLen xs _ t h2)

/-- Helper: every kept tuple has an unseen length and is the first candidate
of its length. -/
theorem dedupByLen_find {α : Type} :
    ∀ (xs : List (List α)) (seen : List Nat) (t : List α),
      t ∈ dedupByLen xs seen →
      t.length ∉ seen ∧ xs.find? (fun y => y.length == t.length) = some t
  | [], seen, t, h => by simp [dedupByLen] at h
  | x :: xs, seen, t, h => by
      rw [dedupByLen] at h
      split at h
      case isTrue hx =>
          obtain ⟨hns, hfind⟩ := dedupByLen_find xs seen t h
          refine ⟨hns, ?_⟩
          have hne : (x.length == t.length) = false := by
            simp only [beq_eq_false_iff_ne]
            intro he
            exact hns (he ▸ hx)
          simp only [List.find?_cons, hne, hfind]
      case isFalse hx =>
          rcases List.mem_cons.mp h with rfl | h2
          · exact ⟨hx, by simp [List.find?_cons]⟩
          · obtain ⟨hns, hfind⟩ := dedupByLen_find xs (x.length :: seen) t h2
            have hne2 : t.length ≠ x.length := by
              intro he
              exact hns (by rw [he]; exact List.mem_cons_self _ _)
            refine ⟨fun hmem => hns (List.mem_cons_of_mem _ hmem), ?_⟩
            have hne : (x.length == t.length) = false := by
              simp only [beq_eq_false_iff_ne]
              intro he
              exact hne2 he.symm
            simp only [List.find?_cons, hne, hfind]

/-- Helper: kept tuples have pairwise distinct lengths. -/
theorem dedupByLen_pairwise {α : Type} :
    ∀ (xs : List (List α)) (seen : List Nat),
      (dedupByLen xs seen).Pairwise (fun a b => a.length ≠ b.length)
  | [], seen => by simp [dedupByLen]
  | x :: xs, seen => by
      rw [dedupByLen]
      split
      · exact dedupByLen_pairwise xs seen
      · refine List.Pairwise.cons ?_ (dedupByLen_pairwise xs _)
        intro y hy he
        have hns := (dedupByLen_find xs (x.length :: seen) y hy).1
        exact hns (by rw [← he]; exact List.mem_cons_self _ _)

/-- Helper: every candidate length is represented among the kept tuples. -/
theorem dedupByLen_complete {α : Type} :
    ∀ (xs : List (List α)) (seen : List Nat) (x : List α),
      x ∈ xs → x.length ∉ seen →
      ∃ t ∈ dedupByLen xs seen, t.length = x.length
  | [], seen, x, hx, hs => absurd hx (List.not_mem_nil x)
  | y :: ys, seen, x, hx, hs => by
      rw [dedupByLen]
      split
      case isTrue hy =>
          rcases List.mem_cons.mp hx with rfl | hx2
          · exact absurd hy hs
          · exact dedupByLen_complete ys seen x hx2 hs
      case isFalse hy =>
          rcases List.mem_cons.mp hx with rfl | hx2
          · exact ⟨x, List.mem_cons_self _ _, rfl⟩
          · by_cases hxy : x.length = y.length
            · exact ⟨y, List.mem_cons_self _ _, hxy.symm⟩
            · have hs2 : x.length ∉ y.length :: seen := by
                intro hmem
                rcases List.mem_cons.mp hmem with h1 | h1
                · exact hxy h1
                · exact hs h1
              obtain ⟨t, ht, hlen⟩ := dedupByLen_complete ys _ x hx2 hs2
              exact ⟨t, List.mem_cons_of_mem _ ht, hlen⟩

/-- C1: permute_optional_groups returns exactly the tuples built from a prefix
of the reversed left list, the required tuple, and a prefix of the right list:
the output is strictly ascending in total length (hence at most one tuple per
length); every candidate total length is represented; and every returned tuple
is a candidate combination that, among all combinations of its total length,
uses the fewest right groups, hence the most left material (the left-first
preference of clinic.py 122-152). -/
theorem permute_optional_groups_spec {α : Type} (left : List (List α))
    (required : List α) (right : List (List α)) (out : List (List α))
    (h : permute_optional_groups left required right = .ok out) :
    out.Pairwise (fun a b => a.length < b.length)
    ∧ (∀ i ≤ left.length, ∀ j ≤ right.length,
        ∃ t ∈ out, t.length = (combo left required right i j).length)
    ∧ (∀ t ∈ out, ∃ i, ∃ j, i ≤ left.length ∧ j ≤ right.length
        ∧ t = combo left required right i j
        ∧ ∀ i' j', i' ≤ left.length → j' ≤ right.length →
            (combo left required right i' j').length = t.length → j ≤ j') := by
  have hout : out
      = List.insertionSort lenLE (dedupByLen (combos left required right) []) := by
    unfold permute_optional_groups at h
    split at h
    · exact absurd h (by simp)
    · exact (Except.ok.inj h).symm
  subst hout
  have hperm :
      List.Perm (List.insertionSort lenLE (dedupByLen (combos left required right) []))
        (dedupByLen (combos left required right) []) :=
    List.perm_insertionSort lenLE _
  refine ⟨?_, ?_, ?_⟩
  · have hsorted := List.sorted_insertionSort lenLE (dedupByLen (combos left required right) [])
    have hne := (hperm.pairwise_iff (fun hab => Ne.symm hab)).mpr
      (dedupByLen_pairwise (combos left required right) [])
    exact (hsorted.and hne).imp
      (fun hab => Nat.lt_of_le_of_ne (hab.1 : _ ≤ _) hab.2)
  · intro i hi j hj
    have hmem : combo left required right i j ∈ combos left required right := by
      rw [combos_eq]
      exact List.mem_flatMap.mpr
        ⟨j, List.mem_range.mpr (by omega),
          List.mem_map.mpr ⟨i, List.mem_range.mpr (by omega), rfl⟩⟩
    obtain ⟨t, ht, hlen⟩ :=
      dedupByLen_complete (combos left required right) [] _ hmem (by simp)
    exact ⟨t, hperm.mem_iff.mpr ht, hlen⟩
  · intro t ht
    have htD : t ∈ dedupByLen (combos left required right) [] := hperm.mem_iff.mp ht
    obtain ⟨hns, hfind⟩ := dedupByLen_find (combos left required right) [] t htD
    rw [List.find?_eq_some] at hfind
    obtain ⟨hpt, as, bs, hsplit, hprev⟩ := hfind
    have hlenc : (as ++ t :: bs).length
        = (right.length + 1) * (left.length + 1) := by
      rw [← hsplit]
      exact combos_length left required right
    have hnlt : as.length < (right.length + 1) * (left.length + 1) := by
      simp only [List.length_append, List.length_cons] at hlenc
      omega
    have hcget : (combos left required right)[as.length]? = some t := by
      rw [hsplit, List.getElem?_append_right (Nat.le_refl _)]
      simp
    have hi2 : as.length % (left.length + 1) < left.length + 1 :=
      Nat.mod_lt _ (Nat.succ_pos _)
    have hj2 : as.length / (left.length + 1) < right.length + 1 :=
      (Nat.div_lt_iff_lt_mul (Nat.succ_pos _)).mpr hnlt
    have hrecon : (as.length / (left.length + 1)) * (left.length + 1)
        + as.length % (left.length + 1) = as.length := by
      rw [Nat.mul_comm]
      exact Nat.div_add_mod as.length (left.length + 1)
    have hcombo : combo left required right (as.length % (left.length + 1))
        (as.length / (left.length + 1)) = t := by
      have hc := combos_getElem left required right
        (as.length % (left.length + 1)) (as.length / (left.length + 1)) hi2 hj2
      rw [hrecon, hcget] at hc
      exact (Option.some.inj hc).symm
    refine ⟨as.length % (left.length + 1), as.length / (left.length + 1),
      by omega, by omega, hcombo.symm, ?_⟩
    intro i' j' hi' hj' hlen'
    by_contra hcon
    push_neg at hcon
    have h1 : (j' + 1) * (left.length + 1)
        ≤ (as.length / (left.length + 1)) * (left.length + 1) :=
      Nat.mul_le_mul_right _ (by omega)
    have h2 : (j' + 1) * (left.length + 1)
        = j' * (left.length + 1) + (left.length + 1) := Nat.succ_mul _ _
    have hlt : j' * (left.length + 1) + i' < as.length := by omega
    have hget' := combos_getElem left required right i' j' (by omega) (by omega)
    rw [hsplit, List.getElem?_append_left (by omega)] at hget'
    have hmem' : combo left required right i' j' ∈ as := List.getElem?_mem hget'
    have hp := hprev _ hmem'
    simp [hlen'] at hp

/-- Witness for permute_optional_groups_spec at left=[[0]], required=[1],
right=[], whose output is [[1], [0, 1]]. -/
theorem permute_optional_groups_spec_witness :
    (([[1], [0, 1]] : List (List Nat)).Pairwise (fun a b => a.length < b.length))
    ∧ (∀ i ≤ 1, ∀ j ≤ 0,
        ∃ t ∈ ([[1], [0, 1]] : List (List Nat)),
          t.length = (combo [[0]] [1] [] i j).length)
    ∧ (∀ t ∈ ([[1], [0, 1]] : List (List Nat)), ∃ i, ∃ j, i ≤ 1 ∧ j ≤ 0
        ∧ t = combo [[0]] [1] [] i j
        ∧ ∀ i' j', i' ≤ 1 → j' ≤ 0 →
            (combo [[0]] [1] [] i' j').length = t.length → j ≤ j') :=
  permute_optional_groups_spec [[0]] [1] [] [[1], [0, 1]] (by decide)

end Clinic
